import Mathlib

/-!
Shallow embedding of the HLTB-for-Millennium plugin's identity-resolution
and caching core, translated from the repository sources:

* `frontend/services/hltbIdCache.ts` — the storefront-id → catalog-id cache
  (`getHltbId`, `setIdCache`).
* `frontend/services/hltbApi.ts` — `fetchFromBackend`, `fetchHltbData`,
  `initializeIdCache`.
* the Lua backend entry point (`GetHltbData`, `GetHltbDataById`,
  `FetchSteamImport`).
* `scripts/discover-name-fixes.js` — `isWithinThreshold`.
* the game-page observer (`handleGamePage`) — background-refresh handling.

JavaScript/Lua values are modelled as follows: machine numbers are `Nat`
(all ids, timestamps, lengths are non-negative integers in the source);
nullable values are `Option`; a JS object store written by indexed
assignment is a function `Nat → Option Nat` updated pointwise; an HTTP/RPC
round trip is an oracle argument giving the (already parsed) response, with
`none` standing for a null/undefined/undecodable payload; a Lua `pcall`
wrapper is `Except String` caught at the boundary.
-/

/-- A parsed HLTB game result as produced by the Lua backend and stored in
the frontend result cache (`HltbGameResult` in `frontend/types`).  All
fields are optional: a confirmed miss carries only `searched_name`. -/
structure HltbGameResult where
  searched_name : Option String := none
  game_id : Option Nat := none
  game_name : Option String := none
  comp_main : Option Nat := none
  comp_plus : Option Nat := none
  comp_100 : Option Nat := none
deriving Repr, DecidableEq

/-- One `steam_id -> hltb_id` mapping as delivered by the backend's
`FetchSteamImport` (frontend `SteamImportResponse.data` element). -/
structure IdMapping where
  steam_id : Nat
  hltb_id : Nat
deriving Repr, DecidableEq

/-- Metadata stamped onto the ID cache by `setIdCache`
(`IdCacheMetadata` in `hltbIdCache.ts`). -/
structure IdCacheMetadata where
  timestamp : Nat
  steamUserId : String
deriving Repr, DecidableEq

/-- The ID cache blob (`IdCacheData` in `hltbIdCache.ts`): the mappings
object plus metadata.  The mappings object is a JS plain object indexed by
steam app id; we model it as a pointwise-updated function. -/
structure IdCacheData where
  mappings : Nat → Option Nat
  metadata : IdCacheMetadata

/-- The loop body of `setIdCache`:
`for (const mapping of mappings) { store[mapping.steam_id] = mapping.hltb_id }`
starting from the empty object `{}`.  Later assignments to the same key
overwrite earlier ones, exactly as in JS. -/
def buildStore (ms : List IdMapping) : Nat → Option Nat :=
  ms.foldl (fun store m => fun k => if k = m.steam_id then some m.hltb_id else store k)
    (fun _ => none)

/-- `setIdCache(mappings, steamUserId)` from `hltbIdCache.ts`: builds a fresh
store from the mapping list and writes a whole new blob
`{ mappings, metadata: { timestamp: Date.now(), steamUserId } }` to
localStorage.  `now` stands for `Date.now()`. -/
def setIdCache (ms : List IdMapping) (steamUserId : String) (now : Nat) : IdCacheData :=
  { mappings := buildStore ms
    metadata := { timestamp := now, steamUserId := steamUserId } }

/-- The localStorage slot holding the ID cache: `none` when the key is
absent (or unparseable, which every reader treats identically). -/
def IdCacheState := Option IdCacheData

/-- The state transition performed by `setIdCache`: `localStorage.setItem`
replaces whatever blob was stored before; the previous state is not read. -/
def setIdCacheState (ms : List IdMapping) (steamUserId : String) (now : Nat)
    (_st : IdCacheState) : IdCacheState :=
  some (setIdCache ms steamUserId now)

/-- `getHltbId(steamAppId)` from `hltbIdCache.ts`: reads the blob, returns
`cache.mappings[steamAppId] ?? null`; a missing or unreadable blob gives
`null`. -/
def getHltbId (st : IdCacheState) (steamAppId : Nat) : Option Nat :=
  match st with
  | none => none
  | some cache => cache.mappings steamAppId

/-- The parsed `SteamImportResponse` of `hltbApi.ts`: `success`, optional
`error`, optional `data` array of mappings. -/
structure SteamImportResponse where
  success : Bool
  error : Option String := none
  data : Option (List IdMapping) := none
deriving Repr, DecidableEq

/-- `initializeIdCache(steamUserId)` from `hltbApi.ts`.  `resp` is the
parsed response of the `FetchSteamImport` RPC; `none` models a
null/undefined payload or a JSON.parse/RPC exception (the catch branch) —
all of those return `false` without touching the cache. -/
def initializeIdCache (steamUserId : String) (resp : Option SteamImportResponse)
    (now : Nat) (st : IdCacheState) : Bool × IdCacheState :=
  if steamUserId = "" then (false, st)
  else
    match resp with
    | none => (false, st)
    | some r =>
      if !r.success then (false, st)
      else
        match r.data with
        | none => (false, st)
        | some ms =>
          if ms.length = 0 then (false, st)
          else (true, setIdCacheState ms steamUserId now st)

/-- One entry of the games array returned by HLTB's Steam import API, as
consumed by the backend `FetchSteamImport` (Lua): both ids may be absent. -/
structure ImportGame where
  steam_id : Option Nat
  hltb_id : Option Nat
deriving Repr, DecidableEq

/-- The mapping-extraction loop of the backend `FetchSteamImport`:
`if game.steam_id and game.hltb_id and game.hltb_id ~= 0 then insert`.
In Lua only `nil`/`false` are falsy, so the guard keeps exactly the games
with both ids present and a nonzero hltb id. -/
def extractMappings (games : List ImportGame) : List IdMapping :=
  games.filterMap fun g =>
    match g.steam_id, g.hltb_id with
    | some s, some h => if h ≠ 0 then some ⟨s, h⟩ else none
    | _, _ => none

/-- The backend `FetchSteamImport(steam_user_id)`: on a successful
`hltb.fetch_steam_import` it answers `success = true` with the filtered
mappings; on failure it answers `success = false` with the error string. -/
def FetchSteamImport (imported : Except String (List ImportGame)) : SteamImportResponse :=
  match imported with
  | .error e => { success := false, error := some e }
  | .ok games => { success := true, data := some (extractMappings games) }

/-- Spec-side contract for §4.7 `reconcile` ("the resulting store contains
exactly the given storefrontId→catalogId pairs"): the lookup of `k` is the
last mapping for `k` in the list, and `none` for keys not in the list. -/
def specStoreLookup (ms : List IdMapping) (k : Nat) : Option Nat :=
  (ms.reverse.find? (fun m => m.steam_id = k)).map (·.hltb_id)

theorem buildStore_generalized (ms : List IdMapping) (init : Nat → Option Nat) (k : Nat) :
    (ms.foldl (fun store m => fun j => if j = m.steam_id then some m.hltb_id else store j)
      init) k =
    match ms.reverse.find? (fun m => m.steam_id = k) with
    | some m => some m.hltb_id
    | none => init k := by
  induction ms generalizing init with
  | nil => simp
  | cons m ms ih =>
    simp only [List.foldl_cons, List.reverse_cons, List.find?_append]
    rw [ih]
    cases h : ms.reverse.find? (fun m => m.steam_id = k) with
    | some m' => simp [h]
    | none =>
      simp only [h, Option.none_orElse]
      by_cases hk : k = m.steam_id
      · simp [hk, List.find?]
      · have : ¬ (m.steam_id = k) := fun hc => hk hc.symm
        simp [List.find?, this, decide_eq_true_eq, hk]

theorem buildStore_eq_specStoreLookup (ms : List IdMapping) (k : Nat) :
    buildStore ms k = specStoreLookup ms k := by
  unfold buildStore specStoreLookup
  rw [buildStore_generalized]
  cases h : ms.reverse.find? (fun m => m.steam_id = k) <;> simp [h]

theorem buildStore_not_mem (ms : List IdMapping) (k : Nat)
    (h : ∀ m ∈ ms, m.steam_id ≠ k) : buildStore ms k = none := by
  rw [buildStore_eq_specStoreLookup]
  unfold specStoreLookup
  have : ms.reverse.find? (fun m => m.steam_id = k) = none := by
    rw [List.find?_eq_none]
    intro m hm
    simp only [decide_eq_true_eq]
    exact h m (List.mem_reverse.mp hm)
  rw [this]
  rfl

theorem buildStore_mem_values (ms : List IdMapping) (k v : Nat)
    (h : buildStore ms k = some v) : ∃ m ∈ ms, m.steam_id = k ∧ m.hltb_id = v := by
  rw [buildStore_eq_specStoreLookup] at h
  unfold specStoreLookup at h
  cases hf : ms.reverse.find? (fun m => m.steam_id = k) with
  | none => rw [hf] at h; simp at h
  | some m =>
    rw [hf] at h
    simp only [Option.map_some', Option.some.injEq] at h
    have hmem := List.mem_reverse.mp (List.mem_of_find?_eq_some hf)
    have hkey := List.find?_some hf
    simp only [decide_eq_true_eq] at hkey
    exact ⟨m, hmem, hkey, h⟩

/-- Every mapping kept by the backend's import filter has a nonzero
catalog id. -/
theorem extractMappings_nonzero (games : List ImportGame) :
    ∀ m ∈ extractMappings games, m.hltb_id ≠ 0 := by
  intro m hm
  unfold extractMappings at hm
  rw [List.mem_filterMap] at hm
  obtain ⟨g, _, hg⟩ := hm
  cases hs : g.steam_id with
  | none => rw [hs] at hg; simp at hg
  | some s =>
    cases hh : g.hltb_id with
    | none => rw [hs, hh] at hg; simp at hg
    | some h =>
      rw [hs, hh] at hg
      dsimp only at hg
      by_cases hz : h ≠ 0
      · rw [if_pos hz] at hg
        injection hg with hg
        subst hg
        exact hz
      · rw [if_neg hz] at hg
        exact absurd hg (by simp)

/-- The frontend result cache, keyed by storefront (app) id
(`{ [storefrontId]: { data, timestamp } }` in localStorage); we model the
data content only, as a pointwise-updated map. -/
def ResultCache := Nat → Option HltbGameResult

/-- `setCache(appId, data)` of the result cache: replaces the whole entry
under `appId`, leaving every other key untouched. -/
def setCache (appId : Nat) (d : HltbGameResult) (rc : ResultCache) : ResultCache :=
  fun k => if k = appId then some d else rc k

/-- Which backend callable `fetchFromBackend` invoked: the direct-by-id
fetch (`GetHltbDataById`) or the name-based search (`GetHltbData`). -/
inductive BackendCall where
  | byId (hltbId : Nat) (appId : Nat)
  | byName (appId : Nat)
deriving Repr, DecidableEq

/-- The parsed `BackendResponse` of `hltbApi.ts`. -/
structure BackendResponse where
  success : Bool
  error : Option String := none
  data : Option HltbGameResult := none
deriving Repr, DecidableEq

/-- JS truthiness of the number-or-null `hltbId`: `if (hltbId)` is taken
only for a present, nonzero number. -/
def numTruthy : Option Nat → Bool
  | some n => n != 0
  | none => false

/-- `fetchFromBackend(appId)` from `hltbApi.ts`.  `backend` is the RPC
oracle: the parsed response of the chosen callable, with `none` standing
for an undefined/null payload or a JSON.parse/RPC exception (all of which
return `null` without writing the cache).  Returns the value handed to the
caller, the result cache after the call, and which callable was invoked. -/
def fetchFromBackend (backend : BackendCall → Option BackendResponse)
    (idCache : IdCacheState) (appId : Nat) (rc : ResultCache) :
    Option HltbGameResult × ResultCache × BackendCall :=
  let hltbId := getHltbId idCache appId
  let call := if numTruthy hltbId then BackendCall.byId (hltbId.getD 0) appId
              else BackendCall.byName appId
  match backend call with
  | none => (none, rc, call)
  | some result =>
    if result.success then
      match result.data with
      | some d => (some d, setCache appId d rc, call)
      | none => (none, rc, call)
    else (none, rc, call)

/-- A stored result-cache entry as read back by `getCache`
(`cached.entry` in `hltbApi.ts`): the `notFound` marker and the data. -/
structure CacheEntry where
  notFound : Bool := false
  data : Option HltbGameResult := none
deriving Repr, DecidableEq

/-- What `getCache(appId)` hands to `fetchHltbData`: the entry together
with the freshness verdict `isStale` (`getCache` itself lives in the
result-cache module; `fetchHltbData` consumes it through this interface). -/
structure CachedResult where
  entry : CacheEntry
  isStale : Bool
deriving Repr, DecidableEq

/-- The `FetchResult` returned by `fetchHltbData`.  The in-flight refresh
promise is modelled by the triple it will resolve to (value, cache after
its write, call made); `none` models a `null` refreshPromise. -/
structure FetchResult where
  data : Option HltbGameResult
  fromCache : Bool
  refreshPromise : Option (Option HltbGameResult × ResultCache × BackendCall)

/-- `fetchHltbData(appId)` from `hltbApi.ts`.  `cached` is the value
`getCache(appId)` returned.  On a cache hit the cached value is returned
at once and the result cache is untouched; a background refresh is started
exactly when the entry is stale or is a miss (`!cachedData.game_id`).
Returns the `FetchResult` and the result cache as of the return. -/
def fetchHltbData (backend : BackendCall → Option BackendResponse)
    (idCache : IdCacheState) (appId : Nat) (cached : Option CachedResult)
    (rc : ResultCache) : FetchResult × ResultCache :=
  match cached with
  | some c =>
    let cachedData := if c.entry.notFound then none else c.entry.data
    -- Always refetch if no game_id (miss) so name fixes can take effect
    let isMiss := match cachedData with
      | none => false
      | some d => !numTruthy d.game_id
    let shouldRefresh := c.isStale || isMiss
    let refreshPromise := if shouldRefresh
      then some (fetchFromBackend backend idCache appId rc) else none
    ({ data := cachedData, fromCache := true, refreshPromise := refreshPromise }, rc)
  | none =>
    let r := fetchFromBackend backend idCache appId rc
    ({ data := r.1, fromCache := false, refreshPromise := none }, r.2.1)

/-- The background-refresh callback installed by `handleGamePage`
(`result.refreshPromise.then((newData) => { if (newData && currentAppId === appId) updateDisplayForApp(appId) })`):
`true` exactly when the display update for `appId` is attempted. -/
def refreshHandlerFires (newData : Option HltbGameResult)
    (currentAppId : Option Nat) (appId : Nat) : Bool :=
  newData.isSome && (currentAppId == some appId)

/-- The HLTB match handed back by the backend's `search_best_match`
(completion times in seconds). -/
structure MatchResult where
  game_id : Nat
  game_name : String
  comp_main : Option Nat := none
  comp_plus : Option Nat := none
  comp_100 : Option Nat := none
deriving Repr, DecidableEq

/-- Where the search query of the backend `GetHltbData` came from: the
manual name-fix table, or the storefront name fetch followed by sanitize. -/
inductive NameSource where
  | fix
  | steamFetch
deriving Repr, DecidableEq

/-- The search-name selection of the backend `GetHltbData`: if the
name-fix table has an entry for `app_id`, that string is the query,
verbatim (no storefront fetch, no sanitize); otherwise the fetched
storefront name (`none` when every name source failed) is sanitized. -/
def computeSearchName (fixes : Nat → Option String) (sanitize : String → String)
    (fetchedName : Option String) (appId : Nat) : Option (String × NameSource) :=
  match fixes appId with
  | some fixedName => some (fixedName, NameSource.fix)
  | none => fetchedName.map fun n => (sanitize n, NameSource.steamFetch)

/-- The `data` object of a backend `GetHltbData` response. -/
structure GetHltbResponseData where
  searched_name : Option String := none
  game_id : Option Nat := none
  game_name : Option String := none
  comp_main : Option Nat := none
  comp_plus : Option Nat := none
  comp_100 : Option Nat := none
deriving Repr, DecidableEq

/-- A backend `GetHltbData` response as JSON-encoded for the frontend. -/
structure GetHltbResponse where
  success : Bool
  error : Option String := none
  data : Option GetHltbResponseData := none
deriving Repr, DecidableEq

/-- The body of the backend `GetHltbData` inside its `pcall`:
name-fix check, name fetch + sanitize, HLTB search, response assembly.
`search` is the `hltb.search_best_match` oracle (`Except` models a Lua
error thrown mid-call); `secondsToHours` is `utils.seconds_to_hours`. -/
def getHltbDataCore (fixes : Nat → Option String) (sanitize : String → String)
    (secondsToHours : Nat → Nat) (fetchedName : Option String)
    (search : String → Except String (Option MatchResult)) (appId : Nat) :
    Except String GetHltbResponse :=
  match computeSearchName fixes sanitize fetchedName appId with
  | none => .ok { success := false, error := some "Could not get game name" }
  | some (searchName, _) =>
    match search searchName with
    | .error e => .error e
    | .ok none => .ok { success := true, data := some { searched_name := some searchName } }
    | .ok (some m) =>
      .ok { success := true
            data := some { searched_name := some searchName
                           game_id := some m.game_id
                           game_name := some m.game_name
                           comp_main := m.comp_main.map secondsToHours
                           comp_plus := m.comp_plus.map secondsToHours
                           comp_100 := m.comp_100.map secondsToHours } }

/-- The backend `GetHltbData` with its `pcall` wrapper: a Lua error
anywhere in the body is caught and returned as
`{ success = false, error = tostring(err) }`. -/
def GetHltbData (fixes : Nat → Option String) (sanitize : String → String)
    (secondsToHours : Nat → Nat) (fetchedName : Option String)
    (search : String → Except String (Option MatchResult)) (appId : Nat) :
    GetHltbResponse :=
  match getHltbDataCore fixes sanitize secondsToHours fetchedName search appId with
  | .ok r => r
  | .error e => { success := false, error := some e }

/-- Outcome of `hltb.fetch_game_by_id` as seen by `GetHltbDataById`:
`Except.error` is a Lua error thrown mid-call (caught by the `pcall`);
`Sum.inl err` is the Lua `nil, err` failure return (`err` possibly nil);
`Sum.inr m` is a fetched match. -/
def FetchByIdOutcome := Except String (Sum (Option String) MatchResult)

/-- The body of the backend `GetHltbDataById` (the direct-ID resolution
entry point) inside its `pcall`: the storefront name fetch for `app_id` is
logging-only (`_fetchedName`; its failure does not affect the result), then
`hltb.fetch_game_by_id(hltb_id)`; a `nil` match returns `success = false`
with the error string (or "Unknown error"), a match returns the completion
times.  The response data carries no `searched_name`. -/
def getHltbDataByIdCore (secondsToHours : Nat → Nat) (_fetchedName : Option String)
    (fetchById : Nat → FetchByIdOutcome) (hltbId : Nat) :
    Except String GetHltbResponse :=
  match fetchById hltbId with
  | .error e => .error e
  | .ok (.inl err) => .ok { success := false, error := some (err.getD "Unknown error") }
  | .ok (.inr m) =>
    .ok { success := true
          data := some { game_id := some m.game_id
                         game_name := some m.game_name
                         comp_main := m.comp_main.map secondsToHours
                         comp_plus := m.comp_plus.map secondsToHours
                         comp_100 := m.comp_100.map secondsToHours } }

/-- The backend `GetHltbDataById` with its `pcall` wrapper: a Lua error
anywhere in the body is caught and returned as
`{ success = false, error = tostring(err) }`. -/
def GetHltbDataById (secondsToHours : Nat → Nat) (fetchedName : Option String)
    (fetchById : Nat → FetchByIdOutcome) (hltbId : Nat) : GetHltbResponse :=
  match getHltbDataByIdCore secondsToHours fetchedName fetchById hltbId with
  | .ok r => r
  | .error e => { success := false, error := some e }

/-- Modelled from the spec: `backend/name_fixes.lua` (the manual override
table) is not under src; the spec states that storefront id 1004640 is
present with value "Final Fantasy Tactics: The Ivalice Chronicles". -/
def nameFixes : Nat → Option String := fun appId =>
  if appId = 1004640 then some "Final Fantasy Tactics: The Ivalice Chronicles" else none

/-- Modelled from the spec: `backend/hltb_utils.lua` (`levenshtein_distance`)
is not under src; the glossary defines edit distance as the minimum number
of single-character insertions/deletions/substitutions, which this standard
recursion computes. -/
def levInner (x : Char) (xs : List Char) (ih : List Char → Nat) : List Char → Nat
  | [] => xs.length + 1
  | y :: ys =>
    if x = y then ih ys
    else 1 + min (ih (y :: ys)) (min (levInner x xs ih ys) (ih ys))

/-- The distance itself; `levInner` supplies the inner recursion on the
second string, so that `lev (x::xs) (y::ys)` is the textbook
`if x = y then lev xs ys else 1 + min (lev xs (y::ys)) (min (lev (x::xs) ys) (lev xs ys))`. -/
def levenshtein_distance : List Char → List Char → Nat
  | [], b => b.length
  | x :: xs, b => levInner x xs (levenshtein_distance xs) b

/-- The character list of a string, lowercased (the callers lowercase both
sides before comparing or taking distances). -/
def lowerChars (s : String) : List Char :=
  s.data.map Char.toLower

/-- The case-insensitive edit distance used as the sole similarity metric
(spec §4.3; the callers lowercase both sides before the distance call). -/
def editDistance (a b : String) : Nat :=
  levenshtein_distance (lowerChars a) (lowerChars b)

/-- `isWithinThreshold(distance, name1, name2)` from
`scripts/discover-name-fixes.js`, taking the two name lengths:
`threshold = Math.max(5, Math.floor(maxLen * 0.2))`.  For every length
below 2^53 the double product `maxLen * 0.2` rounds to within 2^-54
relative error, so `Math.floor` of it equals `maxLen / 5` in `Nat`. -/
def isWithinThreshold (distance : Nat) (len1 len2 : Nat) : Bool :=
  let maxLen := max len1 len2
  let threshold := max 5 (maxLen / 5)
  distance ≤ threshold

/-- Modelled from the spec: `backend/hltb_match.lua` (`search_best_match`)
is not under src.  Spec §4.4 rule 1: any candidate whose title equals the
query case-insensitively, first occurrence. -/
def exactMatchCandidate (query : String) (cands : List MatchResult) : Option MatchResult :=
  cands.find? fun c => lowerChars c.game_name = lowerChars query

/-- Modelled from the spec: the minimum-edit-distance candidate with ties
broken by first occurrence in the candidate list (spec §4.4 rule 2). -/
def bestByDistance (query : String) : List MatchResult → Option (MatchResult × Nat)
  | [] => none
  | c :: cs =>
    let d := editDistance query c.game_name
    match bestByDistance query cs with
    | none => some (c, d)
    | some (b, bd) => if d ≤ bd then some (c, d) else some (b, bd)

/-- Modelled from the spec: accept the minimum-distance candidate if its
distance is within the length-proportional threshold (spec §4.4 rule 2),
else none (rule 3). -/
def distanceMatch (query : String) (cands : List MatchResult) : Option MatchResult :=
  match bestByDistance query cands with
  | none => none
  | some (c, d) =>
    if isWithinThreshold d query.length c.game_name.length then some c else none

/-- Modelled from the spec: `selectBestMatch` with rule order
exact-match-first, then distance match.  The boolean records whether the
distance phase was entered (`false` = exact short-circuit, no edit
distance computed). -/
def selectBestMatchI (query : String) (cands : List MatchResult) :
    Option MatchResult × Bool :=
  match exactMatchCandidate query cands with
  | some c => (some c, false)
  | none => (distanceMatch query cands, true)

/-- The match selector's result alone. -/
def selectBestMatch (query : String) (cands : List MatchResult) : Option MatchResult :=
  (selectBestMatchI query cands).1

theorem bestByDistance_eq_none (query : String) (cands : List MatchResult) :
    bestByDistance query cands = none ↔ cands = [] := by
  cases cands with
  | nil => simp [bestByDistance]
  | cons c cs =>
    simp only [bestByDistance]
    constructor
    · intro h
      cases hb : bestByDistance query cs with
      | none => rw [hb] at h; simp at h
      | some p => rw [hb] at h; cases p with | mk b bd => by_cases hd : editDistance query c.game_name ≤ bd <;> simp [hd] at h
    · intro h; cases h

theorem bestByDistance_spec (query : String) (cands : List MatchResult)
    (c : MatchResult) (d : Nat) (h : bestByDistance query cands = some (c, d)) :
    d = editDistance query c.game_name ∧
    (∀ c2 ∈ cands, d ≤ editDistance query c2.game_name) ∧
    ∃ pre post, cands = pre ++ c :: post ∧
      ∀ c2 ∈ pre, d < editDistance query c2.game_name := by
  induction cands generalizing c d with
  | nil => simp [bestByDistance] at h
  | cons a cs ih =>
    simp only [bestByDistance] at h
    cases hb : bestByDistance query cs with
    | none =>
      have hcs : cs = [] := (bestByDistance_eq_none query cs).mp hb
      rw [hb] at h
      simp only [Option.some.injEq, Prod.mk.injEq] at h
      obtain ⟨hc, hd⟩ := h
      subst hc
      subst hcs
      refine ⟨hd.symm, ?_, [], [], rfl, by simp⟩
      intro c2 hc2
      simp only [List.mem_singleton] at hc2
      subst hc2
      omega
    | some p =>
      cases p with
      | mk b bd =>
        rw [hb] at h
        dsimp only at h
        obtain ⟨hbd, hmin, pre, post, hsplit, hpre⟩ := ih b bd hb
        by_cases hle : editDistance query a.game_name ≤ bd
        · rw [if_pos hle] at h
          simp only [Option.some.injEq, Prod.mk.injEq] at h
          obtain ⟨hc, hd⟩ := h
          subst hc
          refine ⟨hd.symm, ?_, [], cs, by simp, by simp⟩
          intro c2 hc2
          rcases List.mem_cons.mp hc2 with h2 | h2
          · subst h2; omega
          · have := hmin c2 h2; omega
        · rw [if_neg hle] at h
          simp only [Option.some.injEq, Prod.mk.injEq] at h
          obtain ⟨hc, hd⟩ := h
          subst hc
          subst hd
          refine ⟨hbd, ?_, a :: pre, post, by rw [hsplit]; simp, ?_⟩
          · intro c2 hc2
            rcases List.mem_cons.mp hc2 with h2 | h2
            · subst h2; omega
            · exact hmin c2 h2
          · intro c2 hc2
            rcases List.mem_cons.mp hc2 with h2 | h2
            · subst h2; omega
            · exact hpre c2 h2

theorem fetchFromBackend_call_eq (backend : BackendCall → Option BackendResponse)
    (idCache : IdCacheState) (appId : Nat) (rc : ResultCache) :
    (fetchFromBackend backend idCache appId rc).2.2 =
      if numTruthy (getHltbId idCache appId)
      then BackendCall.byId ((getHltbId idCache appId).getD 0) appId
      else BackendCall.byName appId := by
  unfold fetchFromBackend
  dsimp only
  cases hb : backend (if numTruthy (getHltbId idCache appId)
      then BackendCall.byId ((getHltbId idCache appId).getD 0) appId
      else BackendCall.byName appId) with
  | none => rfl
  | some r =>
    by_cases hs : r.success
    · cases hd : r.data <;> simp [hs, hd]
    · simp [hs]

theorem fetchFromBackend_frame (backend : BackendCall → Option BackendResponse)
    (idCache : IdCacheState) (appId : Nat) (rc : ResultCache) (k : Nat)
    (hk : k ≠ appId) :
    (fetchFromBackend backend idCache appId rc).2.1 k = rc k := by
  unfold fetchFromBackend
  dsimp only
  cases hb : backend (if numTruthy (getHltbId idCache appId)
      then BackendCall.byId ((getHltbId idCache appId).getD 0) appId
      else BackendCall.byName appId) with
  | none => rfl
  | some r =>
    by_cases hs : r.success
    · cases hd : r.data with
      | none => simp [hs, hd]
      | some d => simp [hs, hd, setCache, hk]
    · simp [hs]

/-- C1: for every cached result entry whose stored data lacks a catalog id
(a confirmed miss), `fetchHltbData` returns a non-null `refreshPromise`
regardless of the entry's staleness verdict, while handing back the cached
value immediately (`fromCache = true`) and leaving the result cache
untouched at the point of return. -/
theorem fetchHltbData_miss_always_refreshes
    (backend : BackendCall → Option BackendResponse) (idCache : IdCacheState)
    (appId : Nat) (c : CachedResult) (d : HltbGameResult) (rc : ResultCache)
    (hnf : c.entry.notFound = false) (hd : c.entry.data = some d)
    (hmiss : d.game_id = none) :
    (fetchHltbData backend idCache appId (some c) rc).1.refreshPromise.isSome = true ∧
    (fetchHltbData backend idCache appId (some c) rc).1.data = some d ∧
    (fetchHltbData backend idCache appId (some c) rc).1.fromCache = true ∧
    (fetchHltbData backend idCache appId (some c) rc).2 = rc := by
  unfold fetchHltbData
  simp [hnf, hd, hmiss, numTruthy]

theorem fetchHltbData_miss_always_refreshes_witness :
    (fetchHltbData (fun _ => none) none 10
        (some ⟨⟨false, some { searched_name := some "q" }⟩, false⟩)
        (fun _ => none)).1.refreshPromise.isSome = true ∧
    (fetchHltbData (fun _ => none) none 10
        (some ⟨⟨false, some { searched_name := some "q" }⟩, false⟩)
        (fun _ => none)).1.data = some { searched_name := some "q" } ∧
    (fetchHltbData (fun _ => none) none 10
        (some ⟨⟨false, some { searched_name := some "q" }⟩, false⟩)
        (fun _ => none)).1.fromCache = true ∧
    (fetchHltbData (fun _ => none) none 10
        (some ⟨⟨false, some { searched_name := some "q" }⟩, false⟩)
        (fun _ => none)).2 = (fun _ => none) :=
  fetchHltbData_miss_always_refreshes (fun _ => none) none 10
    ⟨⟨false, some { searched_name := some "q" }⟩, false⟩
    { searched_name := some "q" } (fun _ => none) rfl rfl rfl

/-- C2: a background refresh started for storefront id A writes the
refreshed value only under A's own result-cache key (every other key is
unchanged), and the refresh callback updates the display only when the
currently shown identity still equals A — so a changed identity B is never
clobbered. -/
theorem refresh_write_confined_and_guarded
    (backend : BackendCall → Option BackendResponse) (idCache : IdCacheState)
    (appA : Nat) (rc : ResultCache) (k : Nat) (hk : k ≠ appA)
    (newData : Option HltbGameResult) (currentAppId : Option Nat)
    (hcur : currentAppId ≠ some appA) :
    (fetchFromBackend backend idCache appA rc).2.1 k = rc k ∧
    refreshHandlerFires newData currentAppId appA = false ∧
    (∀ nd cur, refreshHandlerFires nd cur appA = true → cur = some appA) := by
  refine ⟨fetchFromBackend_frame backend idCache appA rc k hk, ?_, ?_⟩
  · unfold refreshHandlerFires
    simp [hcur]
  · intro nd cur h
    unfold refreshHandlerFires at h
    simp only [Bool.and_eq_true, beq_iff_eq] at h
    exact h.2

theorem refresh_write_confined_and_guarded_witness :
    (fetchFromBackend (fun _ => some { success := true, data := some { game_id := some 3 } })
        none 10 (fun _ => none)).2.1 11 = (fun _ => none : ResultCache) 11 ∧
    refreshHandlerFires (some { game_id := some 3 }) (some 99) 10 = false ∧
    (∀ nd cur, refreshHandlerFires nd cur 10 = true → cur = some 10) :=
  refresh_write_confined_and_guarded
    (fun _ => some { success := true, data := some { game_id := some 3 } })
    none 10 (fun _ => none) 11 (by decide)
    (some { game_id := some 3 }) (some 99) (by decide)

/-- C3: a bulk import yielding zero mappings, a failed import, or an
undecodable/null import response makes `initializeIdCache` return `false`
without writing the ID cache: the pre-existing ID cache state is returned
unchanged. -/
theorem initializeIdCache_no_write_on_empty_or_failure
    (uid : String) (resp : Option SteamImportResponse) (now : Nat) (st : IdCacheState)
    (h : resp = none ∨ ∃ r, resp = some r ∧
          (r.success = false ∨ r.data = none ∨ r.data = some [])) :
    initializeIdCache uid resp now st = (false, st) := by
  unfold initializeIdCache
  by_cases hu : uid = ""
  · simp [hu]
  · rcases h with h | ⟨r, hr, hcase⟩
    · simp [hu, h]
    · subst hr
      rcases hcase with hs | hd | hd
      · simp [hu, hs]
      · simp [hu, hd]
      · simp [hu, hd]

theorem initializeIdCache_no_write_on_empty_or_failure_witness :
    initializeIdCache "user" (some { success := true, data := some [] }) 0 none =
      (false, none) :=
  initializeIdCache_no_write_on_empty_or_failure "user"
    (some { success := true, data := some [] }) 0 none
    (Or.inr ⟨{ success := true, data := some [] }, rfl, Or.inr (Or.inr rfl)⟩)

/-- C4: for every non-empty mapping list, `setIdCache` replaces the ID
cache wholesale: the new blob's store answers exactly the given
storefrontId→catalogId pairs (last occurrence wins, keys outside the list
absent), is stamped with the given owner user id and the current time, and
is independent of whatever the previous cache state was (not a merge). -/
theorem setIdCache_replaces_wholesale
    (ms : List IdMapping) (uid : String) (now : Nat) (st : IdCacheState)
    (_hne : ms ≠ []) :
    ∃ cache, setIdCacheState ms uid now st = some cache
      ∧ cache.metadata.steamUserId = uid
      ∧ cache.metadata.timestamp = now
      ∧ (∀ k, cache.mappings k = specStoreLookup ms k)
      ∧ (∀ k, (∀ m ∈ ms, m.steam_id ≠ k) → cache.mappings k = none)
      ∧ (∀ st2, setIdCacheState ms uid now st2 = some cache) := by
  refine ⟨setIdCache ms uid now, rfl, rfl, rfl, ?_, ?_, fun _ => rfl⟩
  · intro k
    exact buildStore_eq_specStoreLookup ms k
  · intro k hk
    exact buildStore_not_mem ms k hk

theorem setIdCache_replaces_wholesale_witness :
    ∃ cache, setIdCacheState [⟨1, 2⟩, ⟨1, 3⟩] "u" 5 none = some cache
      ∧ cache.metadata.steamUserId = "u"
      ∧ cache.metadata.timestamp = 5
      ∧ (∀ k, cache.mappings k = specStoreLookup [⟨1, 2⟩, ⟨1, 3⟩] k)
      ∧ (∀ k, (∀ m ∈ [(⟨1, 2⟩ : IdMapping), ⟨1, 3⟩], m.steam_id ≠ k) →
          cache.mappings k = none)
      ∧ (∀ st2, setIdCacheState [⟨1, 2⟩, ⟨1, 3⟩] "u" 5 st2 = some cache) :=
  setIdCache_replaces_wholesale [⟨1, 2⟩, ⟨1, 3⟩] "u" 5 none (by decide)

/-- C5: for a storefront id present in the manual override (name-fix)
table, the backend uses the override's title verbatim as the search query:
the result does not depend on the sanitize transform or on any fetched
storefront title (both are universally quantified and unused), and the
source is the fix table, not a storefront fetch.  In particular id 1004640
queries exactly "Final Fantasy Tactics: The Ivalice Chronicles". -/
theorem nameFix_used_verbatim
    (fixes : Nat → Option String) (sanitize : String → String)
    (fetchedName : Option String) (appId : Nat) (t : String)
    (hfix : fixes appId = some t) :
    computeSearchName fixes sanitize fetchedName appId = some (t, NameSource.fix) ∧
    (∀ sanitize2 fetchedName2,
      computeSearchName nameFixes sanitize2 fetchedName2 1004640 =
        some ("Final Fantasy Tactics: The Ivalice Chronicles", NameSource.fix)) := by
  constructor
  · unfold computeSearchName
    rw [hfix]
  · intro sanitize2 fetchedName2
    unfold computeSearchName nameFixes
    simp

theorem nameFix_used_verbatim_witness :
    computeSearchName nameFixes id none 1004640 =
      some ("Final Fantasy Tactics: The Ivalice Chronicles", NameSource.fix) ∧
    (∀ sanitize2 fetchedName2,
      computeSearchName nameFixes sanitize2 fetchedName2 1004640 =
        some ("Final Fantasy Tactics: The Ivalice Chronicles", NameSource.fix)) :=
  nameFix_used_verbatim nameFixes id none 1004640
    "Final Fantasy Tactics: The Ivalice Chronicles" rfl

/-- C6: when the ID cache was populated by the program's own import path
(whose mappings all carry nonzero catalog ids), a lookup with a cached
mapping (`getHltbId` non-null) invokes exactly the direct-by-id backend
call, and the name-search call is made exactly in the no-mapping branch. -/
theorem cachedId_uses_direct_fetch
    (backend : BackendCall → Option BackendResponse) (games : List ImportGame)
    (uid : String) (now : Nat) (appId : Nat) (rc : ResultCache) :
    (∀ h, getHltbId (some (setIdCache (extractMappings games) uid now)) appId = some h →
      (fetchFromBackend backend (some (setIdCache (extractMappings games) uid now))
        appId rc).2.2 = BackendCall.byId h appId) ∧
    (getHltbId (some (setIdCache (extractMappings games) uid now)) appId = none ↔
      (fetchFromBackend backend (some (setIdCache (extractMappings games) uid now))
        appId rc).2.2 = BackendCall.byName appId) := by
  rw [fetchFromBackend_call_eq]
  constructor
  · intro h hh
    have hz : h ≠ 0 := by
      have hb : buildStore (extractMappings games) appId = some h := hh
      obtain ⟨m, hm, _, hv⟩ := buildStore_mem_values _ _ _ hb
      rw [← hv]
      exact extractMappings_nonzero games m hm
    rw [hh]
    simp [numTruthy, hz]
  · constructor
    · intro hh
      rw [hh]
      simp [numTruthy]
    · intro hh
      cases hg : getHltbId (some (setIdCache (extractMappings games) uid now)) appId with
      | none => rfl
      | some h =>
        have hz : h ≠ 0 := by
          have hb : buildStore (extractMappings games) appId = some h := hg
          obtain ⟨m, hm, _, hv⟩ := buildStore_mem_values _ _ _ hb
          rw [← hv]
          exact extractMappings_nonzero games m hm
        rw [hg] at hh
        simp [numTruthy, hz] at hh

theorem cachedId_uses_direct_fetch_witness :
    (fetchFromBackend (fun _ => none)
      (some (setIdCache (extractMappings [⟨some 10, some 5⟩]) "u" 0)) 10
      (fun _ => none)).2.2 = BackendCall.byId 5 10 ∧
    (fetchFromBackend (fun _ => none)
      (some (setIdCache (extractMappings [⟨some 10, some 5⟩]) "u" 0)) 11
      (fun _ => none)).2.2 = BackendCall.byName 11 :=
  ⟨(cachedId_uses_direct_fetch (fun _ => none) [⟨some 10, some 5⟩] "u" 0 10
      (fun _ => none)).1 5 rfl,
   (cachedId_uses_direct_fetch (fun _ => none) [⟨some 10, some 5⟩] "u" 0 11
      (fun _ => none)).2.mp rfl⟩

/-- C9: when the search selects no match, the backend `GetHltbData` returns
a successful miss carrying only the searched name (`success = true`, data
with `searched_name` and no `game_id`); and on both resolution entry
points — the name search `GetHltbData` and the direct-ID path
`GetHltbDataById` — every internal error is caught by the `pcall` wrapper
and returned as an error value (`success = false`), and the direct-ID
fetch's `nil, err` failure return is likewise surfaced as an error value;
no resolution call terminates in an unhandled failure. -/
theorem getHltbData_miss_is_success_and_errors_wrapped :
    (∀ (fixes : Nat → Option String) (sanitize : String → String)
        (s2h : Nat → Nat) (fetchedName : Option String)
        (search : String → Except String (Option MatchResult)) (appId : Nat)
        (q : String) (src : NameSource),
      computeSearchName fixes sanitize fetchedName appId = some (q, src) →
      search q = .ok none →
      GetHltbData fixes sanitize s2h fetchedName search appId =
        { success := true, error := none, data := some { searched_name := some q } }) ∧
    (∀ (fixes : Nat → Option String) (sanitize : String → String)
        (s2h : Nat → Nat) (fetchedName : Option String)
        (search : String → Except String (Option MatchResult)) (appId : Nat)
        (e : String),
      getHltbDataCore fixes sanitize s2h fetchedName search appId = .error e →
      GetHltbData fixes sanitize s2h fetchedName search appId =
        { success := false, error := some e, data := none }) ∧
    (∀ (s2h : Nat → Nat) (fetchedName : Option String)
        (fetchById : Nat → FetchByIdOutcome) (hltbId : Nat) (e : String),
      getHltbDataByIdCore s2h fetchedName fetchById hltbId = .error e →
      GetHltbDataById s2h fetchedName fetchById hltbId =
        { success := false, error := some e, data := none }) ∧
    (∀ (s2h : Nat → Nat) (fetchedName : Option String)
        (fetchById : Nat → FetchByIdOutcome) (hltbId : Nat) (err : Option String),
      fetchById hltbId = .ok (.inl err) →
      GetHltbDataById s2h fetchedName fetchById hltbId =
        { success := false, error := some (err.getD "Unknown error"), data := none }) := by
  refine ⟨?_, ?_, ?_, ?_⟩
  · intro fixes sanitize s2h fetchedName search appId q src hq hs
    unfold GetHltbData getHltbDataCore
    rw [hq]
    dsimp only
    rw [hs]
  · intro fixes sanitize s2h fetchedName search appId e he
    unfold GetHltbData
    rw [he]
  · intro s2h fetchedName fetchById hltbId e he
    unfold GetHltbDataById
    rw [he]
  · intro s2h fetchedName fetchById hltbId err hf
    unfold GetHltbDataById getHltbDataByIdCore
    rw [hf]

theorem getHltbData_miss_is_success_and_errors_wrapped_witness :
    GetHltbData (fun _ => some "q") id id none (fun _ => Except.ok none) 1 =
      { success := true, error := none, data := some { searched_name := some "q" } } ∧
    GetHltbData (fun _ => some "q") id id none (fun _ => Except.error "boom") 1 =
      { success := false, error := some "boom", data := none } ∧
    GetHltbDataById id none (fun _ => Except.error "netfail") 42 =
      { success := false, error := some "netfail", data := none } ∧
    GetHltbDataById id none (fun _ => Except.ok (Sum.inl none)) 42 =
      { success := false, error := some "Unknown error", data := none } :=
  ⟨getHltbData_miss_is_success_and_errors_wrapped.1 (fun _ => some "q") id id none
      (fun _ => Except.ok none) 1 "q" NameSource.fix rfl rfl,
   getHltbData_miss_is_success_and_errors_wrapped.2.1 (fun _ => some "q") id id none
      (fun _ => Except.error "boom") 1 "boom" rfl,
   getHltbData_miss_is_success_and_errors_wrapped.2.2.1 id none
      (fun _ => Except.error "netfail") 42 "netfail" rfl,
   getHltbData_miss_is_success_and_errors_wrapped.2.2.2 id none
      (fun _ => Except.ok (Sum.inl none)) 42 none rfl⟩

/-- C10: every mapping produced by a successful bulk import has a nonzero
catalog id (the backend filters out missing/zero ids before responding),
so an ID cache populated from an import never stores a zero catalog id and
`getHltbId` over it never returns 0. -/
theorem import_mappings_nonzero (games : List ImportGame) (uid : String) (now k : Nat) :
    (∀ m ∈ extractMappings games, m.hltb_id ≠ 0) ∧
    (FetchSteamImport (Except.ok games)).success = true ∧
    (FetchSteamImport (Except.ok games)).data = some (extractMappings games) ∧
    getHltbId (some (setIdCache (extractMappings games) uid now)) k ≠ some 0 := by
  refine ⟨extractMappings_nonzero games, rfl, rfl, ?_⟩
  intro h0
  have hb : buildStore (extractMappings games) k = some 0 := h0
  obtain ⟨m, hm, _, hv⟩ := buildStore_mem_values _ _ _ hb
  exact extractMappings_nonzero games m hm hv

theorem import_mappings_nonzero_witness :
    (∀ m ∈ extractMappings [⟨some 10, some 0⟩, ⟨some 11, some 7⟩], m.hltb_id ≠ 0) ∧
    (FetchSteamImport (Except.ok [⟨some 10, some 0⟩, ⟨some 11, some 7⟩])).success = true ∧
    (FetchSteamImport (Except.ok [⟨some 10, some 0⟩, ⟨some 11, some 7⟩])).data =
      some (extractMappings [⟨some 10, some 0⟩, ⟨some 11, some 7⟩]) ∧
    getHltbId (some (setIdCache
      (extractMappings [⟨some 10, some 0⟩, ⟨some 11, some 7⟩]) "u" 0)) 11 ≠ some 0 :=
  import_mappings_nonzero [⟨some 10, some 0⟩, ⟨some 11, some 7⟩] "u" 0 11

/-- C7: whenever the candidate list contains a candidate whose title equals
the query case-insensitively, the match selector returns (the first) such
candidate with the distance phase skipped (`false` flag: no edit distance
computed), regardless of the other candidates. -/
theorem selectBestMatch_exact_short_circuit (q : String) (cands : List MatchResult)
    (c : MatchResult) (hc : c ∈ cands) (hx : lowerChars c.game_name = lowerChars q) :
    ∃ cEx, selectBestMatchI q cands = (some cEx, false)
      ∧ exactMatchCandidate q cands = some cEx
      ∧ cEx ∈ cands ∧ lowerChars cEx.game_name = lowerChars q
      ∧ selectBestMatch q cands = some cEx := by
  have hsome : (exactMatchCandidate q cands).isSome := by
    unfold exactMatchCandidate
    rw [List.find?_isSome]
    exact ⟨c, hc, by simp [hx]⟩
  obtain ⟨cEx, hEx⟩ := Option.isSome_iff_exists.mp hsome
  have hfind : cands.find? (fun c2 => lowerChars c2.game_name = lowerChars q) = some cEx := hEx
  have hmem : cEx ∈ cands := List.mem_of_find?_eq_some hfind
  have hxEx : lowerChars cEx.game_name = lowerChars q := by
    have := List.find?_some hfind
    simpa using this
  refine ⟨cEx, ?_, hEx, hmem, hxEx, ?_⟩
  · unfold selectBestMatchI
    rw [hEx]
  · unfold selectBestMatch selectBestMatchI
    rw [hEx]

theorem selectBestMatch_exact_short_circuit_witness :
    ∃ cEx, selectBestMatchI "ab" [⟨1, "c", none, none, none⟩, ⟨2, "AB", none, none, none⟩] = (some cEx, false)
      ∧ exactMatchCandidate "ab" [⟨1, "c", none, none, none⟩, ⟨2, "AB", none, none, none⟩] = some cEx
      ∧ cEx ∈ [(⟨1, "c", none, none, none⟩ : MatchResult), ⟨2, "AB", none, none, none⟩]
      ∧ lowerChars cEx.game_name = lowerChars "ab"
      ∧ selectBestMatch "ab" [⟨1, "c", none, none, none⟩, ⟨2, "AB", none, none, none⟩] = some cEx :=
  selectBestMatch_exact_short_circuit "ab" [⟨1, "c", none, none, none⟩, ⟨2, "AB", none, none, none⟩] ⟨2, "AB", none, none, none⟩
    (by simp) (by decide)

/-- C8: the within-threshold acceptance test is exactly
`distance ≤ max 5 (floor of 20 percent of the longer length)`; a
distance-based match, when returned, is within that threshold for the
query/title pair, has minimal edit distance over the whole candidate list,
and is the first occurrence among minimum-distance ties; and given the
minimum-distance candidate, acceptance happens precisely when it passes
the threshold test. -/
theorem distanceMatch_threshold_and_selection :
    (∀ d l1 l2, isWithinThreshold d l1 l2 = true ↔ d ≤ max 5 (max l1 l2 / 5)) ∧
    (∀ (q : String) (cands : List MatchResult) (c : MatchResult),
      distanceMatch q cands = some c →
      editDistance q c.game_name ≤ max 5 (max q.length c.game_name.length / 5) ∧
      (∀ c2 ∈ cands, editDistance q c.game_name ≤ editDistance q c2.game_name) ∧
      ∃ pre post, cands = pre ++ c :: post ∧
        ∀ c2 ∈ pre, editDistance q c.game_name < editDistance q c2.game_name) ∧
    (∀ (q : String) (cands : List MatchResult) (c : MatchResult) (d : Nat),
      bestByDistance q cands = some (c, d) →
      (distanceMatch q cands = some c ↔
        isWithinThreshold d q.length c.game_name.length = true)) := by
  have hiff : ∀ d l1 l2, isWithinThreshold d l1 l2 = true ↔ d ≤ max 5 (max l1 l2 / 5) := by
    intro d l1 l2
    unfold isWithinThreshold
    simp
  refine ⟨hiff, ?_, ?_⟩
  · intro q cands c hm
    unfold distanceMatch at hm
    cases hb : bestByDistance q cands with
    | none => rw [hb] at hm; simp at hm
    | some p =>
      cases p with
      | mk b bd =>
        rw [hb] at hm
        dsimp only at hm
        by_cases hw : isWithinThreshold bd q.length b.game_name.length = true
        · rw [if_pos hw] at hm
          injection hm with hm
          obtain ⟨hbd, hmin, pre, post, hsplit, hpre⟩ := bestByDistance_spec q cands b bd hb
          subst hm
          subst hbd
          exact ⟨(hiff _ _ _).mp hw, hmin, pre, post, hsplit, hpre⟩
        · rw [if_neg hw] at hm
          simp at hm
  · intro q cands c d hb
    unfold distanceMatch
    rw [hb]
    dsimp only
    constructor
    · intro hm
      by_cases hw : isWithinThreshold d q.length c.game_name.length = true
      · exact hw
      · rw [if_neg hw] at hm
        simp at hm
    · intro hw
      rw [if_pos hw]

theorem distanceMatch_threshold_and_selection_witness :
    (isWithinThreshold 3 10 4 = true ↔ 3 ≤ max 5 (max 10 4 / 5)) ∧
    (editDistance "ab" ("ax" : String) ≤ max 5 (max ("ab".length) ("ax".length) / 5) ∧
      (∀ c2 ∈ [(⟨7, "ax", none, none, none⟩ : MatchResult)],
        editDistance "ab" "ax" ≤ editDistance "ab" c2.game_name) ∧
      ∃ pre post, [(⟨7, "ax", none, none, none⟩ : MatchResult)] = pre ++ (⟨7, "ax", none, none, none⟩ : MatchResult) :: post ∧
        ∀ c2 ∈ pre, editDistance "ab" "ax" < editDistance "ab" c2.game_name) ∧
    (distanceMatch "ab" [⟨7, "ax", none, none, none⟩] = some ⟨7, "ax", none, none, none⟩ ↔
      isWithinThreshold (editDistance "ab" "ax") "ab".length ("ax".length) = true) := by
  refine ⟨distanceMatch_threshold_and_selection.1 3 10 4, ?_, ?_⟩
  · have h2 := distanceMatch_threshold_and_selection.2.1 "ab" [⟨7, "ax", none, none, none⟩] ⟨7, "ax", none, none, none⟩ (by decide)
    exact h2
  · exact distanceMatch_threshold_and_selection.2.2 "ab" [⟨7, "ax", none, none, none⟩] ⟨7, "ax", none, none, none⟩
      (editDistance "ab" "ax") (by decide)
